import Mathlib

/-!
# Package `chrome`: binding dispatch, launch arguments, teardown, executable lookup

Shallow embedding of `app.go` (`New`, `Bind` and its handler closure, `Close`) and of
`chrome_app.go` (`LocateChrome`).  Library calls the source makes (`reflect`, `encoding/json`,
`os`, `io/ioutil`) and the protocol client `*chrome` are represented by their observable
outcomes; every function of the source is a computable definition that additionally records
the calls it makes, so that statements such as "the native function is not invoked" or
"the directory is not removed" can be read off a run.
-/

namespace GoChrome

/-! ## Go values as seen through package `reflect` -/

/-- Descriptor of a Go type.  `interface` carries the interface's name and the names of its
methods (`interface "error" ["Error"]` is the predeclared `error`, an empty method list is
`interface{}`); `named` is a defined struct type or a pointer to one, with the names of the
methods in its method set.  A method is identified by its name. -/
inductive GoType where
  | bool
  | int
  | float64
  | string
  | interface (name : String) (methods : List String)
  | named (name : String) (methods : List String)
  | slice (elem : GoType)
  deriving DecidableEq, Repr

/-- Contents of a Go variable.  `nil` is the nil pointer, nil slice or nil interface; `boxed`
is what a non-nil interface variable holds: a dynamic type and the value of that type. -/
inductive Data where
  | nil
  | bool (b : Bool)
  | int (n : Int)
  | float64 (repr : String)
  | str (s : String)
  | list (elems : List Data)
  | boxed (typ : GoType) (data : Data)

/-- A non-nil `interface{}` (or `error`) value: dynamic type and contents.  A Go interface
value is `Option Boxed`, with `none` for the nil interface. -/
structure Boxed where
  typ : GoType
  data : Data

/-- Go `error` values that are not nil. -/
abbrev GoError := Boxed

/-- The value `errors.New(msg)`. -/
def errorsNew (msg : String) : GoError :=
  ⟨GoType.named "*errors.errorString" ["Error"], Data.str msg⟩

/-- A `reflect.Value`: static type and contents. -/
structure Value where
  typ : GoType
  data : Data

/-- The type `reflect.TypeOf((*error)(nil)).Elem()`. -/
def errorType : GoType := GoType.interface "error" ["Error"]

/-- Method set of a type (by method name). -/
def GoType.methods : GoType → List String
  | GoType.interface _ ms => ms
  | GoType.named _ ms => ms
  | _ => []

/-- `t.Kind() == reflect.Interface`. -/
def GoType.isInterface : GoType → Bool
  | GoType.interface _ _ => true
  | _ => false

/-- `t.String()`. -/
def GoType.String : GoType → String
  | GoType.bool => "bool"
  | GoType.int => "int"
  | GoType.float64 => "float64"
  | GoType.string => "string"
  | GoType.interface name _ => name
  | GoType.named name _ => name
  | GoType.slice elem => "[]" ++ elem.String

/-- `t.Implements(u)` for an interface type `u`: every method of `u` is in the method set
of `t`. -/
def GoType.Implements (t u : GoType) : Bool :=
  u.methods.all (fun m => t.methods.contains m)

/-- `x.AssignableTo(t)`: identical types, or `t` is an interface type that `x` implements. -/
def GoType.AssignableTo (x t : GoType) : Bool :=
  decide (x = t) || (t.isInterface && x.Implements t)

/-- `v.Interface()`: for a value of interface kind the element inside the interface (nil when
the interface is nil), for any other kind the value packed with its static type, which is
never the nil interface, also when the value is a nil pointer. -/
def Value.Interface (v : Value) : Option Boxed :=
  if v.typ.isInterface then
    match v.data with
    | Data.boxed t d => some ⟨t, d⟩
    | _ => none
  else some ⟨v.typ, v.data⟩

/-- Contents of a variable of type `t` after `x` has been assigned to it: a value of a
concrete type stored into an interface variable is boxed with its type. -/
def Value.assignTo (x : Value) (t : GoType) : Data :=
  if t.isInterface && !x.typ.isInterface then Data.boxed x.typ x.data else x.data

/-- A `reflect.Value` of kind `Func`: the declared parameter types `In(0..NumIn-1)`, whether
the last parameter is variadic (its type is then the slice type), the declared result types,
and the function itself, `none` for a nil function value.  The function receives the
arguments and returns the contents of its results. -/
structure FuncValue where
  ins : List GoType
  isVariadic : Bool
  outs : List GoType
  fn : Option (List Value → List Data)

/-- `v.Type().NumIn()`. -/
def FuncValue.NumIn (v : FuncValue) : Nat := v.ins.length

/-- `v.Type().NumOut()`. -/
def FuncValue.NumOut (v : FuncValue) : Nat := v.outs.length

/-- Results of a reflective call: one value per declared result, each carrying its declared
type (a missing content is the zero value, here `nil`). -/
def mkResults : List GoType → List Data → List Value
  | [], _ => []
  | t :: ts, [] => ⟨t, Data.nil⟩ :: mkResults ts []
  | t :: ts, d :: ds => ⟨t, d⟩ :: mkResults ts ds

/-- First position at which an argument type is not assignable to the parameter type. -/
def firstUnassignable : List Value → List GoType → Option (GoType × GoType)
  | x :: xs, t :: ts => if x.typ.AssignableTo t then firstUnassignable xs ts else some (x.typ, t)
  | _, _ => none

/-- Outcome of `reflect.Value.Call`: a run-time panic raised by package `reflect` before the
function is entered, or the arguments the function was entered with and its results. -/
inductive CallResult where
  | panic (msg : String)
  | returned (entered : List Value) (results : List Value)

/-- `v.Call(in)` as implemented by `reflect.Value.call` with `op = "Call"`: nil function check,
argument count check (a variadic function needs at least `NumIn-1` arguments), assignability
of the leading arguments, and for a variadic function the packing of the remaining arguments
into a fresh slice, each of which must be assignable to the ELEMENT type of the last
parameter. -/
def FuncValue.Call (v : FuncValue) (args : List Value) : CallResult :=
  match v.fn with
  | none => CallResult.panic "reflect.Value.Call: call of nil function"
  | some fn =>
    let n := if v.isVariadic then v.NumIn - 1 else v.NumIn
    if args.length < n then CallResult.panic "reflect: Call with too few input arguments"
    else if !v.isVariadic && decide (args.length > n) then
      CallResult.panic "reflect: Call with too many input arguments"
    else
      match firstUnassignable (args.take n) (v.ins.take n) with
      | some (xt, targ) =>
        CallResult.panic ("reflect: Call using " ++ xt.String ++ " as type " ++ targ.String)
      | none =>
        if v.isVariadic then
          match v.ins.get? n with
          | some (GoType.slice elem) =>
            match (args.drop n).find? (fun x => !x.typ.AssignableTo elem) with
            | some x =>
              CallResult.panic
                ("reflect: cannot use " ++ x.typ.String ++ " as type " ++ elem.String ++ " in Call")
            | none =>
              let packed : List Value :=
                args.take n ++
                  [⟨GoType.slice elem, Data.list ((args.drop n).map (fun x => x.assignTo elem))⟩]
              CallResult.returned packed (mkResults v.outs (fn packed))
          | _ => CallResult.panic "reflect: Elem of invalid type"
        else CallResult.returned args (mkResults v.outs (fn args))

/-! ## `app.Bind` and the handler it registers (app.go, lines 95-146) -/

/-- A `json.RawMessage`. -/
abbrev RawMessage := String

/-- The function `json.Unmarshal(raw, p)` for `p` a pointer to a fresh variable of the given
type: the decoded contents of the variable, or the decoding error. -/
abbrev Unmarshal := RawMessage → GoType → Except GoError Data

/-- How an invocation of the handler ends: it returns `(interface{}, error)`, or a run-time
panic unwinds it. -/
inductive Outcome where
  | returned (result : Option Boxed) (err : Option GoError)
  | panicked (msg : String)

/-- Calls the handler makes, in order: `json.Unmarshal(raw[i], ...)` and entering the native
function with the given arguments. -/
inductive Event where
  | unmarshal (i : Nat)
  | invoke (args : List Value)

/-- One invocation of the handler. -/
structure Run where
  events : List Event
  outcome : Outcome

/-- The loop `for i := range raw` of lines 111-117, started at index `i` with the arguments
and events accumulated so far.  `v.Type().In(i)` panics when `i` is out of range. -/
def decodeArgs (unmarshal : Unmarshal) (v : FuncValue) :
    Nat → List RawMessage → List Value → List Event → List Event × Except Outcome (List Value)
  | _, [], args, evs => (evs, Except.ok args)
  | i, r :: rest, args, evs =>
    match v.ins.get? i with
    | none => (evs, Except.error (Outcome.panicked "reflect: Func index out of bounds"))
    | some t =>
      match unmarshal r t with
      | Except.error err =>
        (evs ++ [Event.unmarshal i], Except.error (Outcome.returned none (some err)))
      | Except.ok d =>
        decodeArgs unmarshal v (i + 1) rest (args ++ [⟨t, d⟩]) (evs ++ [Event.unmarshal i])

/-- The `switch len(res)` of lines 120-144. -/
def normalize (res : List Value) : Outcome :=
  match res with
  | [] => Outcome.returned none none
  | [r0] =>
    if r0.typ.Implements errorType then
      match r0.Interface with
      | some e => Outcome.returned none (some e)
      | none => Outcome.returned none none
    else Outcome.returned r0.Interface none
  | [r0, r1] =>
    if !r1.typ.Implements errorType then
      Outcome.returned none (some (errorsNew "second return value must be an error"))
    else
      match r1.Interface with
      | none => Outcome.returned r0.Interface none
      | some e => Outcome.returned r0.Interface (some e)
  | _ => Outcome.returned none (some (errorsNew "unexpected number of return values"))

/-- The closure `func(raw []json.RawMessage) (interface{}, error)` of lines 106-145. -/
def handler (unmarshal : Unmarshal) (v : FuncValue) (raw : List RawMessage) : Run :=
  if raw.length ≠ v.NumIn then
    ⟨[], Outcome.returned none (some (errorsNew "function arguments mismatch"))⟩
  else
    match decodeArgs unmarshal v 0 raw [] [] with
    | (evs, Except.error out) => ⟨evs, out⟩
    | (evs, Except.ok args) =>
      match v.Call args with
      | CallResult.panic msg => ⟨evs, Outcome.panicked msg⟩
      | CallResult.returned entered res => ⟨evs ++ [Event.invoke entered], normalize res⟩

/-- The handler shape the protocol client accepts. -/
abbrev Handler := List RawMessage → Run

/-- The protocol client `*chrome` (its source is not part of `app.go`): the outcome of
`bind(name, handler)`, the outcome of `kill()`, and whether `cmd.Wait()` ever returns, which
is when the `done` channel is closed. -/
structure chrome where
  bind : String → Handler → Option GoError
  kill : Option GoError
  waitReturns : Bool

/-- The struct `app`; the `done` channel is closed exactly when `chrome.waitReturns`. -/
structure app where
  chrome : chrome
  tmpDir : String

/-- The argument `f interface{}` of `Bind` as `reflect.ValueOf(f)` sees it: a value of kind
`Func`, or a value of any other kind (named by `kind`; `nil` has kind `invalid`). -/
inductive GoAny where
  | func (v : FuncValue)
  | other (kind : String)

/-- One call of `Bind`: the `(name, handler)` pairs passed to `chrome.bind`, and the error
returned. -/
structure BindRun where
  forwarded : List (String × Handler)
  result : Option GoError

/-- The method `(a *app) Bind(name, f)` of lines 95-146. -/
def app.Bind (unmarshal : Unmarshal) (a : app) (name : String) (f : GoAny) : BindRun :=
  match f with
  | GoAny.other _ => ⟨[], some (errorsNew "only functions can be bound")⟩
  | GoAny.func v =>
    if v.NumOut > 2 then
      ⟨[], some (errorsNew "function may only return a value or a value+error")⟩
    else
      ⟨[(name, handler unmarshal v)], a.chrome.bind name (handler unmarshal v)⟩

/-! ## `LocateChrome` (chrome_app.go, lines 13-66) -/

/-- Outcome of `os.Stat(path)` as far as the source inspects it: `err == nil`, an error for
which `os.IsNotExist` holds, or any other error (permission denied, a path component that is
not a directory, ...). -/
inductive StatResult where
  | ok
  | notExist
  | otherError
  deriving DecidableEq, Repr

/-- What `LocateChrome` reads from its surroundings: `runtime.GOOS`, `os.LookupEnv` and
`os.Stat`. -/
structure OS where
  goos : String
  lookupEnv : String → Option String
  stat : String → StatResult

/-- `os.Getenv(key)`: the value of the variable, empty when it is not set. -/
def OS.Getenv (os : OS) (key : String) : String :=
  (os.lookupEnv key).getD ""

/-- The `switch runtime.GOOS` of lines 29-57. -/
def candidatePaths (os : OS) : List String :=
  if os.goos = "windows" then
    [ os.Getenv "LocalAppData" ++ "/Google/Chrome/Application/chrome.exe",
      os.Getenv "ProgramFiles" ++ "/Google/Chrome/Application/chrome.exe",
      os.Getenv "ProgramFiles(x86)" ++ "/Google/Chrome/Application/chrome.exe",
      os.Getenv "LocalAppData" ++ "/Chromium/Application/chrome.exe",
      os.Getenv "ProgramFiles" ++ "/Chromium/Application/chrome.exe",
      os.Getenv "ProgramFiles(x86)" ++ "/Chromium/Application/chrome.exe" ]
  else if os.goos = "darwin" then
    [ "/Applications/Google Chrome.app/Contents/MacOS/Google Chrome",
      "/Applications/Google Chrome Canary.app/Contents/MacOS/Google Chrome Canary",
      "/Applications/Chromium.app/Contents/MacOS/Chromium",
      "/usr/bin/google-chrome-stable",
      "/usr/bin/google-chrome",
      "/usr/bin/chromium",
      "/usr/bin/chromium-browser" ]
  else
    [ "/usr/bin/google-chrome-stable",
      "/usr/bin/google-chrome",
      "/usr/bin/chromium",
      "/usr/bin/chromium-browser",
      "/snap/bin/chromium" ]

/-- The loop of lines 59-65: skip a path only when `os.IsNotExist(err)`. -/
def scanPaths (os : OS) : List String → String
  | [] => ""
  | path :: rest => if os.stat path = StatResult.notExist then scanPaths os rest else path

/-- The function `LocateChrome`; `ChromeApp` is the same function. -/
def LocateChrome (os : OS) : String :=
  match os.lookupEnv "LORCACHROME" with
  | some path =>
    if os.stat path = StatResult.ok then path else scanPaths os (candidatePaths os)
  | none => scanPaths os (candidatePaths os)

/-- The variable `ChromeApp = LocateChrome`. -/
def ChromeApp : OS → String := LocateChrome

/-! ## `New` and `Close` (app.go, lines 27-89 and 157-167) -/

/-- The slice `defaultChromeArgs`. -/
def defaultChromeArgs : List String :=
  [ "--disable-background-networking",
    "--disable-background-timer-throttling",
    "--disable-backgrounding-occluded-windows",
    "--disable-breakpad",
    "--disable-client-side-phishing-detection",
    "--disable-default-apps",
    "--disable-dev-shm-usage",
    "--disable-infobars",
    "--disable-extensions",
    "--disable-features=site-per-process",
    "--disable-hang-monitor",
    "--disable-ipc-flooding-protection",
    "--disable-popup-blocking",
    "--disable-prompt-on-repost",
    "--disable-renderer-backgrounding",
    "--disable-sync",
    "--disable-translate",
    "--disable-windows10-custom-titlebar",
    "--metrics-recording-only",
    "--no-first-run",
    "--no-default-browser-check",
    "--safebrowsing-disable-auto-update",
    "--enable-automation",
    "--password-store=basic",
    "--use-mock-keychain" ]

/-- What `New` and `Close` consult outside `app.go`: the operating system as `LocateChrome`
sees it, `os.TempDir()`, the random part of the name `ioutil.TempDir` picks and whether
creating the directory fails, the outcome of `newChromeWithArgs`, and of `os.RemoveAll`. -/
structure Env where
  os : OS
  osTempDir : String
  tempRandom : String
  tempDirErr : Option GoError
  newChromeWithArgs : String → List String → Except GoError chrome
  removeAll : String → Option GoError

/-- `ioutil.TempDir("", "local")`: a new directory under `os.TempDir()` whose name begins
with `local`, or the error of creating it. -/
def Env.TempDir (env : Env) : Except GoError String :=
  match env.tempDirErr with
  | some err => Except.error err
  | none => Except.ok (env.osTempDir ++ "/" ++ ("local" ++ env.tempRandom))

/-- Calls `New` and `Close` make on the operating system and on the protocol client. -/
inductive Effect where
  | tempDir
  | start (path : String) (args : List String)
  | kill (err : Option GoError)
  | waitDone
  | removeAll (path : String)

/-- One call of `New`. -/
structure NewRun where
  effects : List Effect
  result : Except GoError app

/-- Lines 72-76: the argument vector, built by successive `append`s (`defaultChromeArgs` is a
slice literal, so its capacity equals its length and the first `append` copies it). -/
def launchArgs (width height : Int) (url dir : String) (customArgs : List String) :
    List String :=
  let args := defaultChromeArgs ++ ["--app=" ++ url]
  let args := args ++ ["--user-data-dir=" ++ dir]
  let args := args ++ ["--window-size=" ++ toString width ++ "," ++ toString height]
  let args := args ++ customArgs
  args ++ ["--remote-debugging-port=0"]

/-- Lines 72-88 of `New`, once `url` and `dir` have their final values; `effects` are the
calls made before. -/
def startApp (env : Env) (effects : List Effect) (width height : Int) (url dir : String)
    (customArgs : List String) : NewRun :=
  let args := launchArgs width height url dir customArgs
  let path := LocateChrome env.os
  match env.newChromeWithArgs path args with
  | Except.error err => ⟨effects ++ [Effect.start path args], Except.error err⟩
  | Except.ok c => ⟨effects ++ [Effect.start path args], Except.ok ⟨c, dir⟩⟩

/-- The function `New(width, height, url, dir, customArgs...)`. -/
def New (env : Env) (width height : Int) (url dir : String) (customArgs : List String) :
    NewRun :=
  let url := if url = "" then "data:text/html,<html></html>" else url
  if dir = "" then
    match env.TempDir with
    | Except.error err => ⟨[Effect.tempDir], Except.error err⟩
    | Except.ok name => startApp env [Effect.tempDir] width height url name customArgs
  else startApp env [] width height url dir customArgs

/-- One call of `Close`: `result` is `none` when `Close` never returns because the `done`
channel is never closed. -/
structure CloseRun where
  effects : List Effect
  result : Option (Option GoError)

/-- The method `(a *app) Close()`. -/
def app.Close (env : Env) (a : app) : CloseRun :=
  if a.chrome.waitReturns then
    if a.tmpDir ≠ "" then
      match env.removeAll a.tmpDir with
      | some err =>
        ⟨[Effect.kill a.chrome.kill, Effect.waitDone, Effect.removeAll a.tmpDir], some (some err)⟩
      | none =>
        ⟨[Effect.kill a.chrome.kill, Effect.waitDone, Effect.removeAll a.tmpDir], some none⟩
    else ⟨[Effect.kill a.chrome.kill, Effect.waitDone], some none⟩
  else ⟨[Effect.kill a.chrome.kill], none⟩

/-! ## Sample inputs -/

/-- A decoder for the sample inputs: decimal `2` and `3` into `int`, `[2,3]` into `[]int`;
anything else is a decoding error carrying the offending text. -/
def sampleUnmarshal : Unmarshal := fun raw t =>
  match t with
  | GoType.int =>
    if raw = "2" then Except.ok (Data.int 2)
    else if raw = "3" then Except.ok (Data.int 3)
    else Except.error ⟨GoType.named "*json.UnmarshalTypeError" ["Error"], Data.str raw⟩
  | GoType.slice GoType.int =>
    if raw = "[2,3]" then Except.ok (Data.list [Data.int 2, Data.int 3])
    else Except.error ⟨GoType.named "*json.UnmarshalTypeError" ["Error"], Data.str raw⟩
  | _ => Except.error ⟨GoType.named "*json.UnmarshalTypeError" ["Error"], Data.str raw⟩

/-- The function `func add(a, b int) int`, returning `a + b`. -/
def addFn : FuncValue :=
  ⟨[GoType.int, GoType.int], false, [GoType.int],
    some (fun args =>
      match args with
      | [⟨_, Data.int a⟩, ⟨_, Data.int b⟩] => [Data.int (a + b)]
      | _ => [])⟩

/-- The function `func sum(xs ...int) int`. -/
def sumFn : FuncValue :=
  ⟨[GoType.slice GoType.int], true, [GoType.int], some (fun _ => [Data.int 0])⟩

/-- The function `func logAll(xs ...int)`, without results. -/
def logAllFn : FuncValue :=
  ⟨[GoType.slice GoType.int], true, [], some (fun _ => [])⟩

/-- The function `func sumChecked(xs ...int) (int, error)`. -/
def sumCheckedFn : FuncValue :=
  ⟨[GoType.slice GoType.int], true, [GoType.int, errorType],
    some (fun _ => [Data.int 0, Data.nil])⟩

/-- A nil function value, `var f func()`. -/
def nilFn : FuncValue := ⟨[], false, [], none⟩

/-- The pointer type `*MyErr` of a struct type with the method `func (e *MyErr) Error() string`. -/
def myErrPtr : GoType := GoType.named "*MyErr" ["Error"]

/-- The function `func check() *MyErr` that returns the nil pointer. -/
def checkFn : FuncValue := ⟨[], false, [myErrPtr], some (fun _ => [Data.nil])⟩

/-- The function `func find() (int, *MyErr)` that returns `7` and the nil pointer. -/
def findFn : FuncValue :=
  ⟨[], false, [GoType.int, myErrPtr], some (fun _ => [Data.int 7, Data.nil])⟩

/-- A protocol client that accepts every binding, whose `kill` succeeds and whose process
exits. -/
def sampleChrome : chrome := ⟨fun _ _ => none, none, true⟩

/-- A Linux system on which only `/usr/bin/google-chrome` exists. -/
def sampleOS : OS :=
  ⟨"linux", fun _ => none,
    fun p => if p = "/usr/bin/google-chrome" then StatResult.ok else StatResult.notExist⟩

/-- Surroundings in which every operation succeeds. -/
def sampleEnv : Env :=
  ⟨sampleOS, "/tmp", "123456", none, fun _ _ => Except.ok sampleChrome, fun _ => none⟩

/-- The app `New` returns in `sampleEnv` when called with an empty `dir`. -/
def sampleApp : app := ⟨sampleChrome, "/tmp/local123456"⟩

/-- A Linux system without Chrome where `/snap/bin` is a regular file, so that `os.Stat` of
`/snap/bin/chromium` fails with `ENOTDIR`, an error for which `os.IsNotExist` is false. -/
def snapFileOS : OS :=
  ⟨"linux", fun _ => none,
    fun p => if p = "/snap/bin/chromium" then StatResult.otherError else StatResult.notExist⟩

/-! ## The decoding loop -/

theorem decodeArgs_first_failure (u : Unmarshal) (v : FuncValue) :
    ∀ (raw : List RawMessage) (k i : Nat) (args : List Value) (evs : List Event)
      (r : RawMessage) (t : GoType) (e : GoError),
      raw.get? k = some r → v.ins.get? (i + k) = some t → u r t = Except.error e →
      (∀ j, j < k → ∃ rj tj d,
        raw.get? j = some rj ∧ v.ins.get? (i + j) = some tj ∧ u rj tj = Except.ok d) →
      decodeArgs u v i raw args evs =
        (evs ++ (List.range (k + 1)).map (fun j => Event.unmarshal (i + j)),
          Except.error (Outcome.returned none (some e))) := by
  intro raw
  induction raw with
  | nil => intro k i args evs r t e hr; simp at hr
  | cons r0 rest ih =>
    intro k i args evs r t e hr ht he hok
    cases k with
    | zero =>
      simp at hr ht
      subst hr
      simp [decodeArgs, ht, he, List.range_succ]
    | succ k =>
      obtain ⟨r0', t0, d0, h1, h2, h3⟩ := hok 0 (Nat.succ_pos k)
      simp at h1 h2
      subst h1
      have hr' : rest.get? k = some r := by simpa using hr
      have ht' : v.ins.get? (i + 1 + k) = some t := by
        rw [← ht]; congr 1; omega
      have hok' : ∀ j, j < k → ∃ rj tj d,
          rest.get? j = some rj ∧ v.ins.get? (i + 1 + j) = some tj ∧ u rj tj = Except.ok d := by
        intro j hj
        obtain ⟨rj, tj, d, a1, a2, a3⟩ := hok (j + 1) (Nat.succ_lt_succ hj)
        refine ⟨rj, tj, d, by simpa using a1, ?_, a3⟩
        rw [← a2]; congr 1; omega
      have := ih k (i + 1) (args ++ [⟨t0, d0⟩]) (evs ++ [Event.unmarshal i]) r t e hr' ht' he hok'
      simp only [decodeArgs, List.get?_eq_getElem?, h2, h3, this]
      congr 1
      rw [List.range_succ_eq_map (k + 1)]
      simp [List.map_map, Function.comp_def, Nat.add_assoc, Nat.add_comm 1]

/-- The decoding loop raises no panic when the remaining arguments do not outnumber the
remaining parameters, which the count check guarantees. -/
theorem decodeArgs_not_panicked (u : Unmarshal) (v : FuncValue) :
    ∀ (raw : List RawMessage) (i : Nat) (args : List Value) (evs : List Event),
      i + raw.length ≤ v.ins.length →
      ∀ evs1 msg, decodeArgs u v i raw args evs ≠ (evs1, Except.error (Outcome.panicked msg)) := by
  intro raw
  induction raw with
  | nil => intro i args evs _ evs1 msg h; simp [decodeArgs] at h
  | cons r rest ih =>
    intro i args evs hlen evs1 msg h
    simp only [List.length_cons] at hlen
    have hi : i < v.ins.length := by omega
    simp only [decodeArgs, List.get?_eq_getElem?, List.getElem?_eq_getElem hi] at h
    cases hu : u r v.ins[i] with
    | error err => simp [hu] at h
    | ok d =>
      simp only [hu] at h
      exact ih (i + 1) _ _ (by omega) evs1 msg h

/-- When every element decodes, the loop yields one argument per element, each of the declared
parameter type, after one `json.Unmarshal` per element in index order. -/
theorem decodeArgs_all_ok (u : Unmarshal) (v : FuncValue) :
    ∀ (raw : List RawMessage) (i : Nat) (args : List Value) (evs : List Event),
      i + raw.length ≤ v.ins.length →
      (∀ j r t, raw.get? j = some r → v.ins.get? (i + j) = some t → ∃ d, u r t = Except.ok d) →
      ∃ more : List Value,
        decodeArgs u v i raw args evs =
          (evs ++ (List.range raw.length).map (fun j => Event.unmarshal (i + j)),
            Except.ok (args ++ more)) ∧
        more.map Value.typ = (v.ins.drop i).take raw.length := by
  intro raw
  induction raw with
  | nil => intro i args evs _ _; exact ⟨[], by simp [decodeArgs], by simp⟩
  | cons r rest ih =>
    intro i args evs hlen hok
    simp only [List.length_cons] at hlen
    have hi : i < v.ins.length := by omega
    obtain ⟨d, hd⟩ := hok 0 r v.ins[i] (by simp) (by simp [List.getElem?_eq_getElem hi])
    have hok1 : ∀ j r1 t, rest.get? j = some r1 → v.ins.get? (i + 1 + j) = some t →
        ∃ d, u r1 t = Except.ok d := by
      intro j r1 t h1 h2
      refine hok (j + 1) r1 t (by simpa using h1) ?_
      rw [← h2]; congr 1; omega
    obtain ⟨more, h1, h2⟩ :=
      ih (i + 1) (args ++ [⟨v.ins[i], d⟩]) (evs ++ [Event.unmarshal i]) (by omega) hok1
    refine ⟨⟨v.ins[i], d⟩ :: more, ?_, ?_⟩
    · simp only [decodeArgs, List.get?_eq_getElem?, List.getElem?_eq_getElem hi, hd, h1]
      congr 1
      · rw [List.length_cons, List.range_succ_eq_map rest.length]
        simp [List.map_map, Function.comp_def, Nat.add_assoc, Nat.add_comm 1]
      · simp
    · simp only [List.map_cons, h2, List.length_cons]
      rw [List.drop_eq_getElem_cons hi, List.take_succ_cons]

/-! ## Claims about the handler's checks -/

/-- C4: an argument list whose length differs from the declared parameter count makes the
handler return an empty result with the error `function arguments mismatch`; the run has no
event at all, so nothing was decoded and the native function was not entered. -/
theorem handler_count_mismatch (u : Unmarshal) (v : FuncValue) (raw : List RawMessage)
    (hlen : raw.length ≠ v.NumIn) :
    handler u v raw =
      ⟨[], Outcome.returned none (some (errorsNew "function arguments mismatch"))⟩ := by
  simp [handler, hlen]

/-- Witness for C4: `add(a, b int) int` invoked with the single argument `2`. -/
theorem handler_count_mismatch_witness :
    ["2"].length ≠ addFn.NumIn ∧
    handler sampleUnmarshal addFn ["2"] =
      ⟨[], Outcome.returned none (some (errorsNew "function arguments mismatch"))⟩ :=
  ⟨by decide, handler_count_mismatch sampleUnmarshal addFn ["2"] (by decide)⟩

/-- C8: when the argument list has the declared length and some element does not decode into
its parameter type, there is a first such index `k`; the handler has called `json.Unmarshal` on
the elements `0, 1, ..., k` in this order and on nothing else, returns an empty result with the
decoding error of element `k`, and has not entered the native function. -/
theorem handler_decode_failure (u : Unmarshal) (v : FuncValue) (raw : List RawMessage)
    (hlen : raw.length = v.NumIn)
    (hfail : ∃ i r t e, raw.get? i = some r ∧ v.ins.get? i = some t ∧ u r t = Except.error e) :
    ∃ k r t e, raw.get? k = some r ∧ v.ins.get? k = some t ∧ u r t = Except.error e ∧
      (∀ j, j < k → ∃ rj tj d,
        raw.get? j = some rj ∧ v.ins.get? j = some tj ∧ u rj tj = Except.ok d) ∧
      handler u v raw =
        ⟨(List.range (k + 1)).map Event.unmarshal, Outcome.returned none (some e)⟩ ∧
      ∀ args, Event.invoke args ∉ (handler u v raw).events := by
  classical
  have hex : ∃ i, ∃ r t e, raw.get? i = some r ∧ v.ins.get? i = some t ∧ u r t = Except.error e :=
    hfail
  obtain ⟨r, t, e, hr, ht, he⟩ := Nat.find_spec hex
  have hmin := fun j (hj : j < Nat.find hex) => Nat.find_min hex hj
  generalize Nat.find hex = k at hr ht he hmin
  have hk : k < raw.length := by
    by_contra hge
    rw [List.get?_eq_getElem?, List.getElem?_eq_none (by omega)] at hr
    cases hr
  have hok : ∀ j, j < k → ∃ rj tj d,
      raw.get? j = some rj ∧ v.ins.get? j = some tj ∧ u rj tj = Except.ok d := by
    intro j hj
    have hj1 : j < raw.length := by omega
    have hj2 : j < v.ins.length := by unfold FuncValue.NumIn at hlen; omega
    cases hu : u raw[j] v.ins[j] with
    | error err =>
      exact absurd ⟨raw[j], v.ins[j], err, by simp [List.getElem?_eq_getElem hj1],
        by simp [List.getElem?_eq_getElem hj2], hu⟩ (hmin j hj)
    | ok d =>
      exact ⟨raw[j], v.ins[j], d, by simp [List.getElem?_eq_getElem hj1],
        by simp [List.getElem?_eq_getElem hj2], hu⟩
  have hdec := decodeArgs_first_failure u v raw k 0 [] [] r t e hr (by simpa using ht) he
    (by simpa using hok)
  have hrun : handler u v raw =
      ⟨(List.range (k + 1)).map Event.unmarshal, Outcome.returned none (some e)⟩ := by
    simp [handler, hlen, hdec]
  refine ⟨k, r, t, e, hr, ht, he, hok, hrun, ?_⟩
  intro args hmem
  rw [hrun] at hmem
  simp at hmem

/-- Witness for C8: `add(a, b int) int` invoked with `2` and the undecodable text `x`. -/
theorem handler_decode_failure_witness :
    ∃ k r t e, ["2", "x"].get? k = some r ∧ addFn.ins.get? k = some t ∧
      sampleUnmarshal r t = Except.error e ∧
      (∀ j, j < k → ∃ rj tj d, ["2", "x"].get? j = some rj ∧ addFn.ins.get? j = some tj ∧
        sampleUnmarshal rj tj = Except.ok d) ∧
      handler sampleUnmarshal addFn ["2", "x"] =
        ⟨(List.range (k + 1)).map Event.unmarshal, Outcome.returned none (some e)⟩ ∧
      ∀ args, Event.invoke args ∉ (handler sampleUnmarshal addFn ["2", "x"]).events :=
  handler_decode_failure sampleUnmarshal addFn ["2", "x"] (by decide)
    ⟨1, "x", GoType.int, ⟨GoType.named "*json.UnmarshalTypeError" ["Error"], Data.str "x"⟩,
      rfl, rfl, rfl⟩

/-! ## Reflective call and result normalisation -/

/-- Every argument is assignable to a parameter of its own type. -/
theorem firstUnassignable_self (args : List Value) :
    firstUnassignable args (args.map Value.typ) = none := by
  induction args with
  | nil => rfl
  | cons x xs ih => simp [firstUnassignable, GoType.AssignableTo, ih]

/-- The results of a reflective call carry the declared result types, one per declared
result. -/
theorem mkResults_types (outs : List GoType) :
    ∀ ds : List Data, (mkResults outs ds).map Value.typ = outs := by
  induction outs with
  | nil => intro ds; rfl
  | cons t ts ih =>
    intro ds
    cases ds with
    | nil => simp [mkResults, ih]
    | cons d ds => simp [mkResults, ih]

/-- For a non-nil function that is not variadic, called with one argument of each declared
parameter type, `Call` enters the function with these arguments and returns its results. -/
theorem Call_plain (v : FuncValue) (fn : List Value → List Data) (args : List Value)
    (hfn : v.fn = some fn) (hvar : v.isVariadic = false) (htyp : args.map Value.typ = v.ins) :
    v.Call args = CallResult.returned args (mkResults v.outs (fn args)) := by
  have hlen : v.ins.length = args.length := by rw [← htyp, List.length_map]
  have h1 : firstUnassignable args v.ins = none := by
    rw [← htyp]; exact firstUnassignable_self args
  have h2 : List.take args.length v.ins = v.ins := by
    rw [← hlen]; exact List.take_length v.ins
  simp [FuncValue.Call, hfn, hvar, FuncValue.NumIn, hlen, h1, h2]

/-- The one-result case of the `switch`: an error-typed result goes to the error slot (the nil
interface giving `nil, nil`), any other result to the value slot. -/
theorem normalize_one (r : Value) :
    normalize [r] =
      if r.typ.Implements errorType then Outcome.returned none r.Interface
      else Outcome.returned r.Interface none := by
  unfold normalize
  by_cases hi : r.typ.Implements errorType = true
  · cases h : r.Interface <;> simp [hi, h]
  · simp [hi]

/-- The two-result case of the `switch`: the first result is the value and the second the
error, unless the second result type is not an error type. -/
theorem normalize_two (r0 r1 : Value) :
    normalize [r0, r1] =
      if r1.typ.Implements errorType then Outcome.returned r0.Interface r1.Interface
      else Outcome.returned none (some (errorsNew "second return value must be an error")) := by
  unfold normalize
  by_cases hi : r1.typ.Implements errorType = true
  · cases h : r1.Interface <;> simp [hi, h]
  · simp [hi]

/-- Behaviour of the handler on a non-nil function that is not variadic: when the argument
list has the declared length and every element decodes, the handler decodes all elements in
index order, enters the function once with arguments of the declared parameter types, and
returns the normalised results; it does not panic. -/
theorem handler_plain_function (u : Unmarshal) (v : FuncValue) (fn : List Value → List Data)
    (raw : List RawMessage) (hfn : v.fn = some fn) (hvar : v.isVariadic = false)
    (hlen : raw.length = v.NumIn)
    (hdec : ∀ j r t, raw.get? j = some r → v.ins.get? j = some t → ∃ d, u r t = Except.ok d) :
    ∃ args : List Value, args.map Value.typ = v.ins ∧
      handler u v raw =
        ⟨(List.range raw.length).map Event.unmarshal ++ [Event.invoke args],
          normalize (mkResults v.outs (fn args))⟩ := by
  have hlen1 : raw.length = v.ins.length := hlen
  obtain ⟨args, h1, h2⟩ := decodeArgs_all_ok u v raw 0 [] [] (by omega)
    (by intro j r t hr ht; exact hdec j r t hr (by simpa using ht))
  have htyp : args.map Value.typ = v.ins := by
    rw [h2, hlen1]; simp
  refine ⟨args, htyp, ?_⟩
  simp only [List.nil_append, Nat.zero_add] at h1
  simp [handler, hlen, h1, Call_plain v fn args hfn hvar htyp]

/-- The handler panics only inside `reflect.Value.Call`: the argument list then had the
declared length, every element was decoded, and `Call` raised the panic before the native
function was entered. -/
theorem handler_panics_only_in_Call (u : Unmarshal) (v : FuncValue) (raw : List RawMessage)
    (msg : String) (h : (handler u v raw).outcome = Outcome.panicked msg) :
    raw.length = v.NumIn ∧ ∃ evs args,
      decodeArgs u v 0 raw [] [] = (evs, Except.ok args) ∧
      v.Call args = CallResult.panic msg ∧ handler u v raw = ⟨evs, Outcome.panicked msg⟩ := by
  by_cases hlen : raw.length = v.NumIn
  · refine ⟨hlen, ?_⟩
    have hnp := decodeArgs_not_panicked u v raw 0 [] [] (by unfold FuncValue.NumIn at hlen; omega)
    rcases hd : decodeArgs u v 0 raw [] [] with ⟨evs, res⟩
    cases res with
    | error out =>
      simp only [handler, hlen, hd] at h
      simp at h
      subst h
      exact absurd hd (hnp evs msg)
    | ok args =>
      refine ⟨evs, args, rfl, ?_⟩
      cases hc : v.Call args with
      | panic m =>
        simp [handler, hlen, hd, hc] at h
        subst h
        simp [handler, hlen, hd, hc]
      | returned entered res =>
        simp only [handler, hlen, hd, hc] at h
        simp at h
        have : ∀ l, normalize l ≠ Outcome.panicked msg := by
          intro l
          unfold normalize
          split
          · simp
          · split
            · split <;> simp
            · simp
          · split
            · simp
            · split <;> simp
          · simp
        exact absurd h (this res)
  · simp [handler, hlen] at h

/-! ## Claims about result normalisation and faults -/

/-- C2, evaluated where it fails: `func logAll(xs ...int)` is accepted by `Bind`, its argument
list `[2,3]` passes the count check and decodes, and the handler panics inside
`reflect.Value.Call` instead of returning `(nil, nil)`; and for `func check() *MyErr`, whose
result type implements `error`, the nil pointer it returns is reported as a non-nil error. -/
theorem handler_zero_or_one_result_failures :
    (sampleApp.Bind sampleUnmarshal "logAll" (GoAny.func logAllFn)).forwarded =
      [("logAll", handler sampleUnmarshal logAllFn)] ∧
    ["[2,3]"].length = logAllFn.NumIn ∧
    decodeArgs sampleUnmarshal logAllFn 0 ["[2,3]"] [] [] =
      ([Event.unmarshal 0],
        Except.ok [⟨GoType.slice GoType.int, Data.list [Data.int 2, Data.int 3]⟩]) ∧
    handler sampleUnmarshal logAllFn ["[2,3]"] =
      ⟨[Event.unmarshal 0],
        Outcome.panicked "reflect: cannot use []int as type int in Call"⟩ ∧
    handler sampleUnmarshal checkFn [] =
      ⟨[Event.invoke []], Outcome.returned none (some ⟨myErrPtr, Data.nil⟩)⟩ :=
  ⟨rfl, rfl, rfl, rfl, rfl⟩

/-- C3, evaluated where it fails: `func sumChecked(xs ...int) (int, error)` is accepted by
`Bind`, its argument list `[2,3]` passes the count check and decodes, and the handler panics
inside `reflect.Value.Call` instead of returning the value and the error; and for
`func find() (int, *MyErr)` the nil pointer in the second result is reported as a non-nil
error next to the value `7`. -/
theorem handler_two_results_failures :
    (sampleApp.Bind sampleUnmarshal "sumChecked" (GoAny.func sumCheckedFn)).forwarded =
      [("sumChecked", handler sampleUnmarshal sumCheckedFn)] ∧
    ["[2,3]"].length = sumCheckedFn.NumIn ∧
    decodeArgs sampleUnmarshal sumCheckedFn 0 ["[2,3]"] [] [] =
      ([Event.unmarshal 0],
        Except.ok [⟨GoType.slice GoType.int, Data.list [Data.int 2, Data.int 3]⟩]) ∧
    handler sampleUnmarshal sumCheckedFn ["[2,3]"] =
      ⟨[Event.unmarshal 0],
        Outcome.panicked "reflect: cannot use []int as type int in Call"⟩ ∧
    handler sampleUnmarshal findFn [] =
      ⟨[Event.invoke []],
        Outcome.returned (some ⟨GoType.int, Data.int 7⟩) (some ⟨myErrPtr, Data.nil⟩)⟩ :=
  ⟨rfl, rfl, rfl, rfl, rfl⟩

/-- C9, evaluated where it fails: `Bind` accepts the variadic `func sum(xs ...int) int` and the
nil function value `var f func()`; invoking the handler of the first with the one argument
`[2,3]`, and of the second with no argument, does not return a `(result, error)` pair but
panics inside `reflect.Value.Call`, before the native function is entered. -/
theorem handler_panics_on_variadic_and_nil :
    (sampleApp.Bind sampleUnmarshal "sum" (GoAny.func sumFn)).forwarded =
      [("sum", handler sampleUnmarshal sumFn)] ∧
    (sampleApp.Bind sampleUnmarshal "sum" (GoAny.func sumFn)).result = none ∧
    handler sampleUnmarshal sumFn ["[2,3]"] =
      ⟨[Event.unmarshal 0],
        Outcome.panicked "reflect: cannot use []int as type int in Call"⟩ ∧
    (sampleApp.Bind sampleUnmarshal "f" (GoAny.func nilFn)).forwarded =
      [("f", handler sampleUnmarshal nilFn)] ∧
    handler sampleUnmarshal nilFn [] =
      ⟨[], Outcome.panicked "reflect.Value.Call: call of nil function"⟩ :=
  ⟨rfl, rfl, rfl, rfl, rfl⟩

/-- The scenario of the specification on a plain function: `add(a, b int) int` invoked with
`2` and `3` decodes both arguments, enters `add` once and returns `5` without error. -/
theorem handler_add_scenario :
    handler sampleUnmarshal addFn ["2", "3"] =
      ⟨[Event.unmarshal 0, Event.unmarshal 1,
          Event.invoke [⟨GoType.int, Data.int 2⟩, ⟨GoType.int, Data.int 3⟩]],
        Outcome.returned (some ⟨GoType.int, Data.int 5⟩) none⟩ :=
  rfl

/-! ## Claim about registration -/

/-- C5: when `f` is not a function, or is a function declaring more than two results, `Bind`
returns an error and passes nothing to the protocol client; for a function declaring at most
two results, `Bind` passes exactly one pair, the given name with the handler built from the
function, to the protocol client and returns the client's result. -/
theorem Bind_rejects_or_forwards (u : Unmarshal) (a : app) (name : String) (f : GoAny) :
    ((∀ v, f = GoAny.func v → 2 < v.NumOut) →
      (a.Bind u name f).forwarded = [] ∧ ∃ e, (a.Bind u name f).result = some e) ∧
    (∀ v, f = GoAny.func v → v.NumOut ≤ 2 →
      (a.Bind u name f).forwarded = [(name, handler u v)] ∧
      (a.Bind u name f).result = a.chrome.bind name (handler u v)) := by
  constructor
  · intro h
    cases f with
    | other kind => exact ⟨rfl, _, rfl⟩
    | func v =>
      have hv : v.NumOut > 2 := h v rfl
      simp [app.Bind, hv]
  · intro v hf hle
    subst hf
    have hv : ¬ v.NumOut > 2 := by omega
    simp [app.Bind, hv]

/-- Witness for C5: an `int` is rejected, and `add(a, b int) int` is passed on under its name,
here to a protocol client that rejects the registration; the rejection is returned. -/
theorem Bind_rejects_or_forwards_witness :
    ((sampleApp.Bind sampleUnmarshal "n" (GoAny.other "int")).forwarded = [] ∧
      ∃ e, (sampleApp.Bind sampleUnmarshal "n" (GoAny.other "int")).result = some e) ∧
    (((⟨⟨fun _ _ => some (errorsNew "closed"), none, true⟩, ""⟩ : app).Bind sampleUnmarshal
        "add" (GoAny.func addFn)).forwarded = [("add", handler sampleUnmarshal addFn)] ∧
     ((⟨⟨fun _ _ => some (errorsNew "closed"), none, true⟩, ""⟩ : app).Bind sampleUnmarshal
        "add" (GoAny.func addFn)).result = some (errorsNew "closed")) :=
  ⟨(Bind_rejects_or_forwards sampleUnmarshal sampleApp "n" (GoAny.other "int")).1
      (by intro v h; cases h),
    (Bind_rejects_or_forwards sampleUnmarshal
      ⟨⟨fun _ _ => some (errorsNew "closed"), none, true⟩, ""⟩ "add" (GoAny.func addFn)).2
      addFn rfl (by decide)⟩

/-! ## Launch arguments -/

/-- C7: `New` starts the browser at most once, with the path `LocateChrome` returns and the
argument vector made of `defaultChromeArgs`, `--app=` and the URL, `--user-data-dir=` and the
directory, `--window-size=` with width and height in decimal, the custom arguments in the
caller's order, and `--remote-debugging-port=0`; an empty URL is replaced by the blank
document and an empty directory by the directory `ioutil.TempDir` created.  The only case in
which nothing is started is that the temporary directory could not be created. -/
theorem New_launch_args (env : Env) (width height : Int) (url dir : String)
    (customArgs : List String) :
    (New env width height url dir customArgs).effects =
      if dir = "" then
        match env.TempDir with
        | Except.error _ => [Effect.tempDir]
        | Except.ok name =>
          [Effect.tempDir,
            Effect.start (LocateChrome env.os)
              (defaultChromeArgs ++
                ["--app=" ++ (if url = "" then "data:text/html,<html></html>" else url),
                  "--user-data-dir=" ++ name,
                  "--window-size=" ++ toString width ++ "," ++ toString height] ++
                customArgs ++ ["--remote-debugging-port=0"])]
      else
        [Effect.start (LocateChrome env.os)
          (defaultChromeArgs ++
            ["--app=" ++ (if url = "" then "data:text/html,<html></html>" else url),
              "--user-data-dir=" ++ dir,
              "--window-size=" ++ toString width ++ "," ++ toString height] ++
            customArgs ++ ["--remote-debugging-port=0"])] := by
  unfold New
  by_cases hd : dir = ""
  · simp only [hd, if_true]
    cases ht : env.TempDir with
    | error err => rfl
    | ok name =>
      simp only [startApp, launchArgs]
      cases env.newChromeWithArgs _ _ <;> simp [List.append_assoc]
  · simp only [hd, if_false, startApp, launchArgs]
    cases env.newChromeWithArgs _ _ <;> simp [List.append_assoc]

/-- The launch of the `counter` example with one custom argument, on a system where every
operation succeeds: the temporary directory is created, then the browser is started with the
default arguments followed by the five derived ones. -/
theorem New_launch_args_example :
    (New sampleEnv 480 320 "http://localhost:8080" "" ["--headless"]).effects =
      [Effect.tempDir,
        Effect.start "/usr/bin/google-chrome"
          (defaultChromeArgs ++
            ["--app=http://localhost:8080", "--user-data-dir=/tmp/local123456",
              "--window-size=480,320", "--headless", "--remote-debugging-port=0"])] :=
  rfl

/-! ## Teardown -/

/-- The path `ioutil.TempDir` returns is never the empty string. -/
theorem TempDir_ne_empty (env : Env) (name : String) (h : env.TempDir = Except.ok name) :
    name ≠ "" := by
  unfold Env.TempDir at h
  cases he : env.tempDirErr with
  | some err => simp [he] at h
  | none =>
    simp only [he] at h
    injection h with h
    intro hempty
    have hl := congrArg String.length (h.trans hempty)
    simp only [String.length_append] at hl
    have h5 : "local".length = 5 := by decide
    have h0 : "".length = 0 := by decide
    omega

/-- An app that `New` returns holds the directory passed to the browser: the caller's `dir`
when it is not empty, otherwise the directory `ioutil.TempDir` created. -/
theorem New_tmpDir (env : Env) (width height : Int) (url dir : String)
    (customArgs : List String) (a : app)
    (hnew : (New env width height url dir customArgs).result = Except.ok a) :
    if dir = "" then env.TempDir = Except.ok a.tmpDir else a.tmpDir = dir := by
  unfold New at hnew
  by_cases hd : dir = ""
  · simp only [hd, if_true] at hnew ⊢
    cases ht : env.TempDir with
    | error err => simp [ht] at hnew
    | ok name =>
      simp only [ht, startApp] at hnew
      cases hc : env.newChromeWithArgs (LocateChrome env.os)
          (launchArgs width height (if url = "" then "data:text/html,<html></html>" else url)
            name customArgs) with
      | error err => simp [hc] at hnew
      | ok c =>
        simp only [hc] at hnew
        injection hnew with hnew
        rw [← hnew]
  · simp only [hd, if_false, startApp] at hnew ⊢
    cases hc : env.newChromeWithArgs (LocateChrome env.os)
        (launchArgs width height (if url = "" then "data:text/html,<html></html>" else url)
          dir customArgs) with
    | error err => simp [hc] at hnew
    | ok c =>
      simp only [hc] at hnew
      injection hnew with hnew
      rw [← hnew]

/-- Once the process has exited, `Close` on an app with a non-empty `tmpDir` requests the kill,
waits, removes `tmpDir` and returns the outcome of the removal. -/
theorem Close_of_tmpDir (env : Env) (a : app) (hdone : a.chrome.waitReturns = true)
    (hne : a.tmpDir ≠ "") :
    a.Close env =
      ⟨[Effect.kill a.chrome.kill, Effect.waitDone, Effect.removeAll a.tmpDir],
        some (env.removeAll a.tmpDir)⟩ := by
  unfold app.Close
  cases hr : env.removeAll a.tmpDir <;> simp [hdone, hne, hr]

/-- C6: for an app that `New` returned for an empty `dir`, whose process exits, `Close`
requests the kill, waits for the `done` channel, removes the directory that `ioutil.TempDir`
created and returns exactly the outcome of `os.RemoveAll`, whatever `kill` returned. -/
theorem Close_removes_created_dir (env : Env) (width height : Int) (url : String)
    (customArgs : List String) (a : app)
    (hnew : (New env width height url "" customArgs).result = Except.ok a)
    (hdone : a.chrome.waitReturns = true) :
    env.TempDir = Except.ok a.tmpDir ∧
    a.Close env =
      ⟨[Effect.kill a.chrome.kill, Effect.waitDone, Effect.removeAll a.tmpDir],
        some (env.removeAll a.tmpDir)⟩ := by
  have ht : env.TempDir = Except.ok a.tmpDir := by
    simpa using New_tmpDir env width height url "" customArgs a hnew
  exact ⟨ht, Close_of_tmpDir env a hdone (TempDir_ne_empty env a.tmpDir ht)⟩

/-- Witness for C6: in surroundings where `kill` fails and removing the directory fails, the
app created with an empty `dir` removes `/tmp/local123456` on `Close` and returns the removal
error. -/
theorem Close_removes_created_dir_witness :
    (⟨sampleOS, "/tmp", "123456", none,
        fun _ _ => Except.ok ⟨fun _ _ => none, some (errorsNew "process already finished"), true⟩,
        fun _ => some (errorsNew "directory not empty")⟩ : Env).TempDir =
      Except.ok "/tmp/local123456" ∧
    (⟨⟨fun _ _ => none, some (errorsNew "process already finished"), true⟩,
        "/tmp/local123456"⟩ : app).Close
      ⟨sampleOS, "/tmp", "123456", none,
        fun _ _ => Except.ok ⟨fun _ _ => none, some (errorsNew "process already finished"), true⟩,
        fun _ => some (errorsNew "directory not empty")⟩ =
      ⟨[Effect.kill (some (errorsNew "process already finished")), Effect.waitDone,
          Effect.removeAll "/tmp/local123456"],
        some (some (errorsNew "directory not empty"))⟩ :=
  Close_removes_created_dir
    ⟨sampleOS, "/tmp", "123456", none,
      fun _ _ => Except.ok ⟨fun _ _ => none, some (errorsNew "process already finished"), true⟩,
      fun _ => some (errorsNew "directory not empty")⟩
    480 320 "" []
    ⟨⟨fun _ _ => none, some (errorsNew "process already finished"), true⟩, "/tmp/local123456"⟩
    rfl rfl

/-- C1, evaluated where it fails: `New` called with the caller's directory
`/home/user/profile` creates no temporary directory and stores the caller's directory in
`tmpDir`; `Close` then calls `os.RemoveAll` on `/home/user/profile`. -/
theorem Close_removes_caller_dir :
    (New sampleEnv 480 320 "" "/home/user/profile" []).effects =
      [Effect.start "/usr/bin/google-chrome"
        (launchArgs 480 320 "data:text/html,<html></html>" "/home/user/profile" [])] ∧
    (New sampleEnv 480 320 "" "/home/user/profile" []).result =
      Except.ok ⟨sampleChrome, "/home/user/profile"⟩ ∧
    (⟨sampleChrome, "/home/user/profile"⟩ : app).Close sampleEnv =
      ⟨[Effect.kill none, Effect.waitDone, Effect.removeAll "/home/user/profile"],
        some none⟩ :=
  ⟨rfl, rfl, rfl⟩

/-- The behaviour behind the failure of C1, for every caller-supplied directory: `Close`
removes whatever directory the app was started with, whether or not `New` created it. -/
theorem Close_removes_any_dir (env : Env) (width height : Int) (url dir : String)
    (customArgs : List String) (a : app) (hdir : dir ≠ "")
    (hnew : (New env width height url dir customArgs).result = Except.ok a)
    (hdone : a.chrome.waitReturns = true) :
    a.Close env =
      ⟨[Effect.kill a.chrome.kill, Effect.waitDone, Effect.removeAll dir],
        some (env.removeAll dir)⟩ := by
  have ht : a.tmpDir = dir := by
    simpa [hdir] using New_tmpDir env width height url dir customArgs a hnew
  have := Close_of_tmpDir env a hdone (by rw [ht]; exact hdir)
  rwa [ht] at this

/-! ## Executable lookup -/

/-- The loop over the candidate paths returns the first path whose `os.Stat` does not report
"does not exist", and the empty string when there is none. -/
theorem scanPaths_eq_find (os : OS) (paths : List String) :
    scanPaths os paths =
      (paths.find? (fun p => decide (os.stat p ≠ StatResult.notExist))).getD "" := by
  induction paths with
  | nil => rfl
  | cons p rest ih =>
    by_cases h : os.stat p = StatResult.notExist
    · simp [scanPaths, List.find?, h, ih]
    · simp [scanPaths, List.find?, h]

/-- When `LORCACHROME` is set and `os.Stat` succeeds on its value, `LocateChrome` returns that
value. -/
theorem LocateChrome_of_env (os : OS) (path : String)
    (henv : os.lookupEnv "LORCACHROME" = some path) (hstat : os.stat path = StatResult.ok) :
    LocateChrome os = path := by
  simp [LocateChrome, henv, hstat]

/-- In every other case `LocateChrome` returns the outcome of the loop over the platform's
candidate paths. -/
theorem LocateChrome_of_no_env (os : OS)
    (henv : ∀ path, os.lookupEnv "LORCACHROME" = some path → os.stat path ≠ StatResult.ok) :
    LocateChrome os = scanPaths os (candidatePaths os) := by
  unfold LocateChrome
  cases h : os.lookupEnv "LORCACHROME" with
  | none => rfl
  | some path => simp [henv path h]

/-- The loop returns the empty string or a path that it did not find missing. -/
theorem scanPaths_stat (os : OS) (paths : List String) :
    scanPaths os paths = "" ∨ os.stat (scanPaths os paths) ≠ StatResult.notExist := by
  induction paths with
  | nil => exact Or.inl rfl
  | cons p rest ih =>
    by_cases h : os.stat p = StatResult.notExist
    · simpa [scanPaths, h] using ih
    · right; simp [scanPaths, h]

/-- On a system where `os.Stat` either succeeds or reports "does not exist", a non-empty
result of `LocateChrome` names an existing file. -/
theorem LocateChrome_exists_of_two_valued_stat (os : OS)
    (htwo : ∀ p, os.stat p ≠ StatResult.otherError) (hne : LocateChrome os ≠ "") :
    os.stat (LocateChrome os) = StatResult.ok := by
  have hscan : scanPaths os (candidatePaths os) ≠ "" →
      os.stat (scanPaths os (candidatePaths os)) = StatResult.ok := by
    intro h
    rcases scanPaths_stat os (candidatePaths os) with h0 | h1
    · exact absurd h0 h
    · have := htwo (scanPaths os (candidatePaths os))
      cases hs : os.stat (scanPaths os (candidatePaths os)) <;> simp_all
  unfold LocateChrome at hne ⊢
  cases h : os.lookupEnv "LORCACHROME" with
  | none => simp only [h] at hne ⊢; exact hscan hne
  | some path =>
    simp only [h] at hne ⊢
    by_cases hs : os.stat path = StatResult.ok
    · simp [hs]
    · simp only [hs, if_false] at hne ⊢
      exact hscan hne

/-- C10, evaluated where it fails: on a Linux system without `LORCACHROME` on which no
candidate path exists and `os.Stat` of `/snap/bin/chromium` fails with an error other than
"does not exist", `LocateChrome` (and `ChromeApp`) returns `/snap/bin/chromium` instead of the
empty string, a path that `os.Stat` cannot find. -/
theorem LocateChrome_returns_missing_path :
    snapFileOS.lookupEnv "LORCACHROME" = none ∧
    (∀ p ∈ candidatePaths snapFileOS, snapFileOS.stat p ≠ StatResult.ok) ∧
    LocateChrome snapFileOS = "/snap/bin/chromium" ∧
    ChromeApp snapFileOS = "/snap/bin/chromium" ∧
    snapFileOS.stat "/snap/bin/chromium" = StatResult.otherError := by
  refine ⟨rfl, ?_, by decide, by decide, by decide⟩
  decide

end GoChrome
